import Mathlib

/-!
Shallow embedding of the cluster-api-incus machine reconciler.

Sources embedded:
- `src/internal/controller/incusmachine_controller.go`: `Reconcile`,
  `reconcileNormal`, `reconcileDelete` over an `IncusMachine` object.
- `src/unnamed/part_000` (package `incus`): `clientImpl.CreateInstance`
  request construction and `clientImpl.InstanceExists` error translation.
- `src/unnamed/part_001` (package `v1alpha1`): the `IncusMachine` data model.

The backend client is modelled as a deterministic responder: a record of
functions from instance names to `Except`-results, standing for the answers
the Incus daemon would give during one reconcile invocation.  Each reconcile
records the backend calls it issues (with the observed responses) and the
Kubernetes store writes it commits (`r.Update`, `r.Status().Update`); store
writes themselves are modelled as always succeeding, which is the case the
claims quantify over.  Go `int` is modelled as `Int`; Go `fmt.Sprintf` with
a `%d` verb is modelled with `toString` on `Int`, which prints the same
decimal form.
-/

namespace Incus

/-- Machine spec from `v1alpha1.IncusMachineSpec` (part_001). -/
structure IncusMachineSpec where
  image : String
  cpus : Int
  memoryMiB : Int
  rootDiskSizeGiB : Int
deriving DecidableEq, Repr

/-- Machine status from `v1alpha1.IncusMachineStatus` (part_001); the
conditions list is not consulted by the reconciler and is omitted. -/
structure IncusMachineStatus where
  instanceID : String
deriving DecidableEq, Repr

/-- The `IncusMachine` object: object metadata relevant to the reconciler
(name, deletion timestamp presence, finalizer list) plus spec and status. -/
structure IncusMachine where
  name : String
  deletionTimestampSet : Bool
  finalizers : List String
  spec : IncusMachineSpec
  status : IncusMachineStatus
deriving DecidableEq, Repr

/-- `incusMachineFinalizer` constant from the controller. -/
def incusMachineFinalizer : String := "infrastructure.cluster.x-k8s.io/incusmachine"

/-- `controllerutil.ContainsFinalizer`. -/
def containsFinalizer (m : IncusMachine) (f : String) : Bool :=
  m.finalizers.contains f

/-- `controllerutil.AddFinalizer`: appends the marker when absent. -/
def addFinalizer (m : IncusMachine) (f : String) : IncusMachine :=
  if m.finalizers.contains f then m
  else { m with finalizers := m.finalizers ++ [f] }

/-- `controllerutil.RemoveFinalizer`: drops every occurrence of the marker. -/
def removeFinalizer (m : IncusMachine) (f : String) : IncusMachine :=
  { m with finalizers := m.finalizers.filter (fun x => x ≠ f) }

/-- Deterministic responder standing for the `incus.Client` interface during
one reconcile: what each backend operation would answer. -/
structure Client where
  instanceExists : String → Except String Bool
  createInstance : String → String → Int → Int → Int → Except String Unit
  deleteInstance : String → Except String Unit

instance {ε α : Type} [DecidableEq ε] [DecidableEq α] : DecidableEq (Except ε α) :=
  fun x y =>
    match x, y with
    | .error a, .error b =>
        if h : a = b then .isTrue (by simp [h]) else .isFalse (by simp [h])
    | .ok a, .ok b =>
        if h : a = b then .isTrue (by simp [h]) else .isFalse (by simp [h])
    | .error _, .ok _ => .isFalse (by simp)
    | .ok _, .error _ => .isFalse (by simp)

/-- One backend call issued by the reconciler, with the observed response. -/
inductive Call where
  | instExists (name : String) (resp : Except String Bool)
  | createInst (name image : String) (cpus memoryMiB rootDiskSizeGiB : Int)
      (resp : Except String Unit)
  | deleteInst (name : String) (resp : Except String Unit)
deriving DecidableEq, Repr

/-- The instance name a backend call addresses. -/
def Call.cname : Call → String
  | .instExists n _ => n
  | .createInst n _ _ _ _ _ => n
  | .deleteInst n _ => n

/-- Whether the call's response was an error. -/
def Call.isErr : Call → Bool
  | .instExists _ (.error _) => true
  | .createInst _ _ _ _ _ (.error _) => true
  | .deleteInst _ (.error _) => true
  | _ => false

/-- The error message of an erroring call, if any. -/
def Call.errMsg : Call → Option String
  | .instExists _ (.error e) => some e
  | .createInst _ _ _ _ _ (.error e) => some e
  | .deleteInst _ (.error e) => some e
  | _ => none

/-- Whether the call is a `CreateInstance` request. -/
def Call.isCreate : Call → Bool
  | .createInst _ _ _ _ _ _ => true
  | _ => false

/-- Whether the call is a `DeleteInstance` request. -/
def Call.isDelete : Call → Bool
  | .deleteInst _ _ => true
  | _ => false

/-- Whether the call changes backend state (create or delete, as opposed to
a read-only existence check). -/
def Call.isMutating (k : Call) : Bool :=
  k.isCreate || k.isDelete

/-- Whether the call is an existence check that reported absence. -/
def Call.isExistsFalse : Call → Bool
  | .instExists _ (.ok false) => true
  | _ => false

/-- A committed write to the declarative-object store: `r.Update` or
`r.Status().Update` with the object state being persisted. -/
inductive StoreWrite where
  | update (m : IncusMachine)
  | statusUpdate (m : IncusMachine)
deriving DecidableEq, Repr

/-- Outcome of one reconcile invocation: final in-memory object, requeue
directive, returned error, backend-call trace, committed store writes. -/
structure RecResult where
  machine : IncusMachine
  requeue : Bool
  error : Option String
  calls : List Call
  writes : List StoreWrite
deriving DecidableEq, Repr

/-- Instance-name selection of `reconcileNormal` (controller lines 74-77):
the object's name unless the status already carries an `instanceID`. -/
def normalName (m : IncusMachine) : String :=
  if m.status.instanceID ≠ "" then m.status.instanceID else m.name

/-- Instance-name selection of `reconcileDelete` (controller lines 131-134):
the status `instanceID`, falling back to the object's name when empty. -/
def deleteName (m : IncusMachine) : String :=
  if m.status.instanceID = "" then m.name else m.status.instanceID

/-- Image defaulting (controller lines 98-101, identically part_000 lines
95-97). -/
def defaultImage (s : String) : String :=
  if s = "" then "images:ubuntu/24.04" else s

/-- CPU defaulting (controller lines 102-105, identically part_000 lines
89-91). -/
def defaultCpus (n : Int) : Int :=
  if n < 1 then 2 else n

/-- Memory defaulting (controller lines 106-109, identically part_000 lines
92-94). -/
def defaultMemoryMiB (n : Int) : Int :=
  if n < 1 then 2048 else n

/-- `reconcileNormal` from `incusmachine_controller.go` lines 73-124. -/
def reconcileNormal (c : Client) (m : IncusMachine) : RecResult :=
  let instanceName := normalName m
  match c.instanceExists instanceName with
  | .error e =>
      { machine := m, requeue := false, error := some e
        calls := [.instExists instanceName (.error e)], writes := [] }
  | .ok true =>
      if m.status.instanceID ≠ instanceName then
        let m' := { m with status := { m.status with instanceID := instanceName } }
        { machine := m', requeue := false, error := none
          calls := [.instExists instanceName (.ok true)]
          writes := [.statusUpdate m'] }
      else
        { machine := m, requeue := false, error := none
          calls := [.instExists instanceName (.ok true)], writes := [] }
  | .ok false =>
      let image := defaultImage m.spec.image
      let cpus := defaultCpus m.spec.cpus
      let memoryMiB := defaultMemoryMiB m.spec.memoryMiB
      let rootDiskSizeGiB := m.spec.rootDiskSizeGiB
      match c.createInstance instanceName image cpus memoryMiB rootDiskSizeGiB with
      | .error e =>
          { machine := m, requeue := false, error := some e
            calls := [.instExists instanceName (.ok false),
                      .createInst instanceName image cpus memoryMiB rootDiskSizeGiB (.error e)]
            writes := [] }
      | .ok _ =>
          let m' := { m with status := { m.status with instanceID := instanceName } }
          { machine := m', requeue := false, error := none
            calls := [.instExists instanceName (.ok false),
                      .createInst instanceName image cpus memoryMiB rootDiskSizeGiB (.ok ())]
            writes := [.statusUpdate m'] }

/-- `reconcileDelete` from `incusmachine_controller.go` lines 126-158. -/
def reconcileDelete (c : Client) (m : IncusMachine) : RecResult :=
  if containsFinalizer m incusMachineFinalizer then
    let instanceName := deleteName m
    if instanceName ≠ "" then
      match c.instanceExists instanceName with
      | .error e =>
          { machine := m, requeue := false, error := some e
            calls := [.instExists instanceName (.error e)], writes := [] }
      | .ok true =>
          match c.deleteInstance instanceName with
          | .error e =>
              { machine := m, requeue := false, error := some e
                calls := [.instExists instanceName (.ok true),
                          .deleteInst instanceName (.error e)]
                writes := [] }
          | .ok _ =>
              let m' := removeFinalizer m incusMachineFinalizer
              { machine := m', requeue := false, error := none
                calls := [.instExists instanceName (.ok true),
                          .deleteInst instanceName (.ok ())]
                writes := [.update m'] }
      | .ok false =>
          let m' := removeFinalizer m incusMachineFinalizer
          { machine := m', requeue := false, error := none
            calls := [.instExists instanceName (.ok false)]
            writes := [.update m'] }
    else
      let m' := removeFinalizer m incusMachineFinalizer
      { machine := m', requeue := false, error := none
        calls := [], writes := [.update m'] }
  else
    { machine := m, requeue := false, error := none, calls := [], writes := [] }

/-- `Reconcile` from `incusmachine_controller.go` lines 48-71, for an object
that was found in the store (the not-found early return is outside the
claims' scope). -/
def Reconcile (c : Client) (m : IncusMachine) : RecResult :=
  if m.deletionTimestampSet then
    reconcileDelete c m
  else if ¬ containsFinalizer m incusMachineFinalizer then
    let m' := addFinalizer m incusMachineFinalizer
    { machine := m', requeue := true, error := none, calls := [], writes := [.update m'] }
  else
    reconcileNormal c m

/-!
Backend client internals from `src/unnamed/part_000`.
-/

/-- The instance-creation request built by `clientImpl.CreateInstance`
(part_000 lines 83-129): `api.InstancesPost` with config map, profiles,
optional root-disk device override, image source and start flag. -/
structure InstancesPost where
  name : String
  config : List (String × String)
  profiles : List String
  devices : List (String × List (String × String))
  sourceType : String
  sourceAlias : String
  start : Bool
deriving DecidableEq, Repr

/-- Request construction of `clientImpl.CreateInstance` (part_000 lines
88-129): the defaulting applied inside the client followed by assembly of
the `api.InstancesPost` value handed to the Incus server. -/
def clientCreateRequest (name image : String) (cpus memoryMiB rootDiskSizeGiB : Int) :
    InstancesPost :=
  let cpus := defaultCpus cpus
  let memoryMiB := defaultMemoryMiB memoryMiB
  let image := defaultImage image
  let config := [("limits.cpu", toString cpus),
                 ("limits.memory", toString memoryMiB ++ "MiB"),
                 ("security.secureboot", "false")]
  let devices :=
    if rootDiskSizeGiB > 0 then
      [("root", [("type", "disk"), ("pool", "default"), ("path", "/"),
                 ("size", toString rootDiskSizeGiB ++ "GiB")])]
    else []
  { name := name, config := config, profiles := ["default"], devices := devices,
    sourceType := "image", sourceAlias := image, start := true }

/-- An error from the Incus API carrying an HTTP status code, as consumed by
`api.StatusErrorCheck`. -/
structure ApiErr where
  status : Nat
  msg : String
deriving DecidableEq, Repr

/-- `api.StatusErrorCheck err code`. -/
def statusErrorCheck (e : ApiErr) (code : Nat) : Bool :=
  e.status == code

/-- `clientImpl.InstanceExists` (part_000 lines 162-175): `conn` is the
outcome of the `Connect` call, `g` the outcome of `server.GetInstance`.
Returns the Go `(bool, error)` pair as an `Except`: `(b, nil) ↦ .ok b`,
`(false, err) ↦ .error err`. -/
def instanceExistsImpl (conn : Except String Unit) (g : Except ApiErr Unit) :
    Except String Bool :=
  match conn with
  | .error e => .error e
  | .ok _ =>
      match g with
      | .error e =>
          if statusErrorCheck e 404 then .ok false else .error e.msg
      | .ok _ => .ok true

/-!
Concrete backend-state semantics used for the idempotence claim: the backend
is a list of existing instance names; an existence check answers membership,
create inserts the name, delete removes it, and none of them fail.
-/

/-- Backend state: the set of instance names that currently exist. -/
abbrev BackendState := List String

/-- The client responder induced by a concrete backend state: every call
succeeds and existence is membership. -/
def stateClient (b : BackendState) : Client where
  instanceExists := fun n => .ok (b.contains n)
  createInstance := fun _ _ _ _ _ => .ok ()
  deleteInstance := fun _ => .ok ()

/-- Effect of one backend call on the backend state. -/
def applyCall (b : BackendState) : Call → BackendState
  | .instExists _ _ => b
  | .createInst n _ _ _ _ _ => if b.contains n then b else b ++ [n]
  | .deleteInst n _ => b.filter (fun x => x ≠ n)

/-- One reconcile against a concrete backend state: the reconcile outcome
together with the backend state after the calls it issued. -/
def reconcileStep (m : IncusMachine) (b : BackendState) : RecResult × BackendState :=
  let r := Reconcile (stateClient b) m
  (r, r.calls.foldl applyCall b)

/-!
Concrete fixtures used by witnesses and counterexamples.
-/

/-- A spec with all defaultable fields invalid. -/
def specZero : IncusMachineSpec :=
  { image := "", cpus := 0, memoryMiB := 0, rootDiskSizeGiB := 0 }

/-- A spec with all fields valid. -/
def specValid : IncusMachineSpec :=
  { image := "images:debian/12", cpus := 4, memoryMiB := 4096, rootDiskSizeGiB := 10 }

/-- Responder that reports every instance as present and succeeds on every
mutation. -/
def okTrueClient : Client where
  instanceExists := fun _ => .ok true
  createInstance := fun _ _ _ _ _ => .ok ()
  deleteInstance := fun _ => .ok ()

/-- Responder that reports every instance as absent and succeeds on every
mutation. -/
def okFalseClient : Client where
  instanceExists := fun _ => .ok false
  createInstance := fun _ _ _ _ _ => .ok ()
  deleteInstance := fun _ => .ok ()

/-- Responder whose existence check fails. -/
def errExistsClient : Client where
  instanceExists := fun _ => .error "connection refused"
  createInstance := fun _ _ _ _ _ => .ok ()
  deleteInstance := fun _ => .ok ()

/-- A live machine named `w1` with no finalizer and an all-default spec. -/
def mNew : IncusMachine :=
  { name := "w1", deletionTimestampSet := false, finalizers := []
    spec := specZero, status := { instanceID := "" } }

/-- A live machine named `w1` carrying the finalizer. -/
def mLive : IncusMachine :=
  { name := "w1", deletionTimestampSet := false, finalizers := [incusMachineFinalizer]
    spec := specZero, status := { instanceID := "" } }

/-- A machine named `w1` with deletion requested and the finalizer present. -/
def mDeleting : IncusMachine :=
  { name := "w1", deletionTimestampSet := true, finalizers := [incusMachineFinalizer]
    spec := specZero, status := { instanceID := "" } }

/-!
Claim theorems.
-/

/-- The defaulted image reference is never the empty string. -/
lemma defaultImage_ne_empty (s : String) : defaultImage s ≠ "" := by
  unfold defaultImage
  split
  · decide
  · assumption

/-- The defaulted cpu count is always at least 1. -/
lemma one_le_defaultCpus (n : Int) : 1 ≤ defaultCpus n := by
  unfold defaultCpus
  split <;> omega

/-- The defaulted memory size is always at least 1. -/
lemma one_le_defaultMemoryMiB (n : Int) : 1 ≤ defaultMemoryMiB n := by
  unfold defaultMemoryMiB
  split <;> omega

/-- Removing the finalizer marker leaves an object on which the marker
presence check fails. -/
lemma containsFinalizer_removeFinalizer (m : IncusMachine) (f : String) :
    containsFinalizer (removeFinalizer m f) f = false := by
  simp [containsFinalizer, removeFinalizer]

/-- C4, counterexample: contrary to the claim that the Backend Client places
the given image, cpus and memory values unchanged into the creation request,
`clientImpl.CreateInstance` at `(name "w1", image "", cpus 0, memoryMiB 0)`
substitutes the defaults: the request's source alias is the default image
(not the given empty string) and the config carries cpu `2` and memory
`2048MiB` (not the raw zeros). -/
theorem c4_counterexample :
    (clientCreateRequest "w1" "" 0 0 0).sourceAlias = "images:ubuntu/24.04" ∧
    (clientCreateRequest "w1" "" 0 0 0).sourceAlias ≠ "" ∧
    (clientCreateRequest "w1" "" 0 0 0).config =
      [("limits.cpu", "2"), ("limits.memory", "2048MiB"),
       ("security.secureboot", "false")] := by
  refine ⟨rfl, by decide, rfl⟩

/-- C4, amended: the Backend Client applies the same defaulting as the
caller before building the creation request — `cpus<1 → 2`,
`memoryMiB<1 → 2048`, empty image → the distribution default image — and
passes the name and already-valid values through unchanged; the request
never carries a raw invalid value. -/
theorem c4_client_defaulting (name image : String) (cpus memoryMiB rootDiskSizeGiB : Int) :
    (clientCreateRequest name image cpus memoryMiB rootDiskSizeGiB).name = name ∧
    (clientCreateRequest name image cpus memoryMiB rootDiskSizeGiB).sourceAlias =
      defaultImage image ∧
    (clientCreateRequest name image cpus memoryMiB rootDiskSizeGiB).config =
      [("limits.cpu", toString (defaultCpus cpus)),
       ("limits.memory", toString (defaultMemoryMiB memoryMiB) ++ "MiB"),
       ("security.secureboot", "false")] ∧
    defaultImage image ≠ "" ∧ 1 ≤ defaultCpus cpus ∧ 1 ≤ defaultMemoryMiB memoryMiB :=
  ⟨rfl, rfl, rfl, defaultImage_ne_empty image, one_le_defaultCpus cpus,
   one_le_defaultMemoryMiB memoryMiB⟩

/-- C6: for a live object without the finalizer, `Reconcile` appends the
finalizer, persists the object with a single store update, requests an
immediate requeue, makes no backend call, and returns no error. -/
theorem c6_new_object_adds_finalizer (c : Client) (m : IncusMachine)
    (hd : m.deletionTimestampSet = false)
    (hf : containsFinalizer m incusMachineFinalizer = false) :
    (Reconcile c m).machine.finalizers = m.finalizers ++ [incusMachineFinalizer] ∧
    (Reconcile c m).writes = [.update (Reconcile c m).machine] ∧
    (Reconcile c m).requeue = true ∧
    (Reconcile c m).calls = [] ∧
    (Reconcile c m).error = none := by
  have hmem : incusMachineFinalizer ∉ m.finalizers := by
    simpa [containsFinalizer] using hf
  simp [Reconcile, hd, containsFinalizer, addFinalizer, hmem]

/-- C6 witness: the new-object reconcile at a concrete machine. -/
theorem c6_witness :
    (Reconcile okFalseClient mNew).machine.finalizers =
      mNew.finalizers ++ [incusMachineFinalizer] ∧
    (Reconcile okFalseClient mNew).writes = [.update (Reconcile okFalseClient mNew).machine] ∧
    (Reconcile okFalseClient mNew).requeue = true ∧
    (Reconcile okFalseClient mNew).calls = [] ∧
    (Reconcile okFalseClient mNew).error = none :=
  c6_new_object_adds_finalizer okFalseClient mNew rfl rfl

/-- C7: `clientImpl.InstanceExists` translates a backend 404 into
`(false, nil)`, a successful lookup into `(true, nil)`, and surfaces any
other failure — a connection failure or a non-404 API error — as an error. -/
theorem c7_instance_exists_translation (conn : Except String Unit) (g : Except ApiErr Unit) :
    (∀ e : ApiErr, conn = .ok () → g = .error e → e.status = 404 →
        instanceExistsImpl conn g = .ok false) ∧
    (conn = .ok () → g = .ok () → instanceExistsImpl conn g = .ok true) ∧
    (∀ ce : String, conn = .error ce → instanceExistsImpl conn g = .error ce) ∧
    (∀ e : ApiErr, conn = .ok () → g = .error e → e.status ≠ 404 →
        instanceExistsImpl conn g = .error e.msg) := by
  refine ⟨?_, ?_, ?_, ?_⟩
  · rintro e rfl rfl h404
    simp [instanceExistsImpl, statusErrorCheck, h404]
  · rintro rfl rfl
    simp [instanceExistsImpl]
  · rintro ce rfl
    simp [instanceExistsImpl]
  · rintro e rfl rfl h404
    simp [instanceExistsImpl, statusErrorCheck, h404]

/-- C7 witness: each translation case at a concrete response. -/
theorem c7_witness :
    instanceExistsImpl (.ok ()) (.error ⟨404, "not found"⟩) = .ok false ∧
    instanceExistsImpl (.ok ()) (.ok ()) = .ok true ∧
    instanceExistsImpl (.error "conn down") (.ok ()) = .error "conn down" ∧
    instanceExistsImpl (.ok ()) (.error ⟨500, "boom"⟩) = .error "boom" :=
  ⟨(c7_instance_exists_translation (.ok ()) (.error ⟨404, "not found"⟩)).1
      ⟨404, "not found"⟩ rfl rfl rfl,
   (c7_instance_exists_translation (.ok ()) (.ok ())).2.1 rfl rfl,
   (c7_instance_exists_translation (.error "conn down") (.ok ())).2.2.1 "conn down" rfl,
   (c7_instance_exists_translation (.ok ()) (.error ⟨500, "boom"⟩)).2.2.2
      ⟨500, "boom"⟩ rfl rfl (by decide)⟩

/-- The delete path's name fallback picks the same name as the normal
path's: status `instanceID` when non-empty, the object name otherwise. -/
lemma deleteName_eq_normalName (m : IncusMachine) : deleteName m = normalName m := by
  unfold deleteName normalName
  by_cases h : m.status.instanceID = "" <;> simp [h]

/-- A machine carrying a status `instanceID` that differs from its own
name. -/
def mWithID : IncusMachine :=
  { name := "w1", deletionTimestampSet := false, finalizers := [incusMachineFinalizer]
    spec := specZero, status := { instanceID := "w9" } }

/-- C8: in both the normal and the delete reconcile, every backend call —
existence check, create, delete — addresses the status `instanceID` when it
is non-empty and the object's own name otherwise. -/
theorem c8_status_first_naming (c : Client) (m : IncusMachine) :
    ((reconcileNormal c m).calls.all fun k => k.cname == normalName m) = true ∧
    ((reconcileDelete c m).calls.all fun k => k.cname == normalName m) = true := by
  constructor
  · rcases hE : c.instanceExists (normalName m) with e | b
    · simp [reconcileNormal, hE, Call.cname]
    · cases b
      · rcases hC : c.createInstance (normalName m) (defaultImage m.spec.image)
            (defaultCpus m.spec.cpus) (defaultMemoryMiB m.spec.memoryMiB)
            m.spec.rootDiskSizeGiB with e | u
        · simp [reconcileNormal, hE, hC, Call.cname]
        · simp [reconcileNormal, hE, hC, Call.cname]
      · by_cases hs : m.status.instanceID ≠ normalName m
        · simp [reconcileNormal, hE, hs, Call.cname]
        · simp [reconcileNormal, hE, hs, Call.cname]
  · rw [← deleteName_eq_normalName m]
    by_cases hf : containsFinalizer m incusMachineFinalizer
    · by_cases hn : deleteName m ≠ ""
      · rcases hE : c.instanceExists (deleteName m) with e | b
        · simp [reconcileDelete, hf, hn, hE, Call.cname]
        · cases b
          · simp [reconcileDelete, hf, hn, hE, Call.cname]
          · rcases hD : c.deleteInstance (deleteName m) with e | u
            · simp [reconcileDelete, hf, hn, hE, hD, Call.cname]
            · simp [reconcileDelete, hf, hn, hE, hD, Call.cname]
      · simp [reconcileDelete, hf, hn]
    · simp [reconcileDelete, hf]

/-- C10: a non-empty status `instanceID` is never overwritten with a
different value — after any reconcile, successful or not, it still holds
the value it had at entry. -/
theorem c10_instance_id_stable (c : Client) (m : IncusMachine)
    (h : m.status.instanceID ≠ "") :
    (Reconcile c m).machine.status.instanceID = m.status.instanceID := by
  have hnn : normalName m = m.status.instanceID := by simp [normalName, h]
  by_cases hd : m.deletionTimestampSet
  · by_cases hf : containsFinalizer m incusMachineFinalizer
    · by_cases hn : deleteName m ≠ ""
      · rcases hE : c.instanceExists (deleteName m) with e | b
        · simp [Reconcile, hd, reconcileDelete, hf, hn, hE]
        · cases b
          · simp [Reconcile, hd, reconcileDelete, hf, hn, hE, removeFinalizer]
          · rcases hD : c.deleteInstance (deleteName m) with e | u
            · simp [Reconcile, hd, reconcileDelete, hf, hn, hE, hD]
            · simp [Reconcile, hd, reconcileDelete, hf, hn, hE, hD, removeFinalizer]
      · simp [Reconcile, hd, reconcileDelete, hf, hn, removeFinalizer]
    · simp [Reconcile, hd, reconcileDelete, hf]
  · by_cases hf : containsFinalizer m incusMachineFinalizer
    · rcases hE : c.instanceExists m.status.instanceID with e | b
      · simp [Reconcile, hd, hf, reconcileNormal, hnn, hE]
      · cases b
        · rcases hC : c.createInstance m.status.instanceID (defaultImage m.spec.image)
              (defaultCpus m.spec.cpus) (defaultMemoryMiB m.spec.memoryMiB)
              m.spec.rootDiskSizeGiB with e | u
          · simp [Reconcile, hd, hf, reconcileNormal, hnn, hE, hC]
          · simp [Reconcile, hd, hf, reconcileNormal, hnn, hE, hC]
        · simp [Reconcile, hd, hf, reconcileNormal, hnn, hE]
    · have hd' : m.deletionTimestampSet = false := by simpa using hd
      have hmem : incusMachineFinalizer ∉ m.finalizers := by
        simpa [containsFinalizer] using hf
      simp [Reconcile, hd', containsFinalizer, hmem, addFinalizer]

/-- C10 witness: a reconcile of a machine whose status already carries
`instanceID = "w9"` leaves that value in place. -/
theorem c10_witness :
    mWithID.status.instanceID ≠ "" ∧
    (Reconcile okTrueClient mWithID).machine.status.instanceID = mWithID.status.instanceID :=
  ⟨by decide, c10_instance_id_stable okTrueClient mWithID (by decide)⟩

/-- C2: create and delete are existence-gated. For a live object carrying
the finalizer whose existence check answers true, the reconcile issues no
create, syncs the status `instanceID` to the looked-up name, and succeeds;
for a deleting object carrying the finalizer whose existence check answers
false, the reconcile issues no delete, removes the finalizer, and
succeeds. -/
theorem c2_existence_gated (c : Client) (m : IncusMachine)
    (hfin : containsFinalizer m incusMachineFinalizer = true) :
    (m.deletionTimestampSet = false →
      c.instanceExists (normalName m) = .ok true →
      (Reconcile c m).calls.any Call.isCreate = false ∧
      (Reconcile c m).machine.status.instanceID = normalName m ∧
      (Reconcile c m).error = none) ∧
    (m.deletionTimestampSet = true →
      c.instanceExists (deleteName m) = .ok false →
      (Reconcile c m).calls.any Call.isDelete = false ∧
      containsFinalizer (Reconcile c m).machine incusMachineFinalizer = false ∧
      (Reconcile c m).error = none) := by
  constructor
  · intro hd hE
    by_cases hs : m.status.instanceID ≠ normalName m
    · simp [Reconcile, hd, hfin, reconcileNormal, hE, hs, Call.isCreate]
    · push_neg at hs
      simp [Reconcile, hd, hfin, reconcileNormal, hE, hs, Call.isCreate]
  · intro hd hE
    by_cases hn : deleteName m ≠ ""
    · simp [Reconcile, hd, hfin, reconcileDelete, hn, hE, Call.isDelete,
            containsFinalizer_removeFinalizer]
    · simp [Reconcile, hd, hfin, reconcileDelete, hn,
            containsFinalizer_removeFinalizer]

/-- C2 witness: the create gate at a live machine whose instance exists and
the delete gate at a deleting machine whose instance is absent. -/
theorem c2_witness :
    ((Reconcile okTrueClient mLive).calls.any Call.isCreate = false ∧
     (Reconcile okTrueClient mLive).machine.status.instanceID = normalName mLive ∧
     (Reconcile okTrueClient mLive).error = none) ∧
    ((Reconcile okFalseClient mDeleting).calls.any Call.isDelete = false ∧
     containsFinalizer (Reconcile okFalseClient mDeleting).machine incusMachineFinalizer
       = false ∧
     (Reconcile okFalseClient mDeleting).error = none) :=
  ⟨(c2_existence_gated okTrueClient mLive (by decide)).1 rfl rfl,
   (c2_existence_gated okFalseClient mDeleting (by decide)).2 rfl rfl⟩

/-- C3: every create call the reconciler issues carries the defaulted
image, cpu and memory values — the spec values when valid, the defaults
`2`, `2048` and the distribution default image otherwise — and never a raw
invalid value; the root-disk size is passed through. -/
theorem c3_reconciler_defaults (c : Client) (m : IncusMachine)
    (name image : String) (cpus memoryMiB rootDiskSizeGiB : Int)
    (resp : Except String Unit)
    (hmem : Call.createInst name image cpus memoryMiB rootDiskSizeGiB resp ∈
      (Reconcile c m).calls) :
    image = defaultImage m.spec.image ∧
    cpus = defaultCpus m.spec.cpus ∧
    memoryMiB = defaultMemoryMiB m.spec.memoryMiB ∧
    rootDiskSizeGiB = m.spec.rootDiskSizeGiB ∧
    image ≠ "" ∧ 1 ≤ cpus ∧ 1 ≤ memoryMiB := by
  by_cases hd : m.deletionTimestampSet
  · exfalso
    by_cases hf : containsFinalizer m incusMachineFinalizer
    · by_cases hn : deleteName m ≠ ""
      · rcases hE : c.instanceExists (deleteName m) with e | b
        · simp [Reconcile, hd, hf, reconcileDelete, hn, hE] at hmem
        · cases b
          · simp [Reconcile, hd, hf, reconcileDelete, hn, hE] at hmem
          · rcases hD : c.deleteInstance (deleteName m) with e | u
            · simp [Reconcile, hd, hf, reconcileDelete, hn, hE, hD] at hmem
            · simp [Reconcile, hd, hf, reconcileDelete, hn, hE, hD] at hmem
      · simp [Reconcile, hd, hf, reconcileDelete, hn] at hmem
    · simp [Reconcile, hd, hf, reconcileDelete] at hmem
  · by_cases hf : containsFinalizer m incusMachineFinalizer
    · rcases hE : c.instanceExists (normalName m) with e | b
      · simp [Reconcile, hd, hf, reconcileNormal, hE] at hmem
      · cases b
        · rcases hC : c.createInstance (normalName m) (defaultImage m.spec.image)
              (defaultCpus m.spec.cpus) (defaultMemoryMiB m.spec.memoryMiB)
              m.spec.rootDiskSizeGiB with e | u
          · simp [Reconcile, hd, hf, reconcileNormal, hE, hC] at hmem
            obtain ⟨-, hi, hc, hm, hr, -⟩ := hmem
            exact ⟨hi, hc, hm, hr, hi ▸ defaultImage_ne_empty m.spec.image,
              hc ▸ one_le_defaultCpus m.spec.cpus,
              hm ▸ one_le_defaultMemoryMiB m.spec.memoryMiB⟩
          · simp [Reconcile, hd, hf, reconcileNormal, hE, hC] at hmem
            obtain ⟨-, hi, hc, hm, hr, -⟩ := hmem
            exact ⟨hi, hc, hm, hr, hi ▸ defaultImage_ne_empty m.spec.image,
              hc ▸ one_le_defaultCpus m.spec.cpus,
              hm ▸ one_le_defaultMemoryMiB m.spec.memoryMiB⟩
        · by_cases hs : m.status.instanceID ≠ normalName m
          · simp [Reconcile, hd, hf, reconcileNormal, hE, hs] at hmem
          · simp [Reconcile, hd, hf, reconcileNormal, hE, hs] at hmem
    · simp [Reconcile, hd, hf] at hmem

/-- C3 witness: the create call issued for an all-invalid spec carries the
defaults. -/
theorem c3_witness :
    Call.createInst "w1" "images:ubuntu/24.04" 2 2048 0 (.ok ()) ∈
      (Reconcile okFalseClient mLive).calls ∧
    ("images:ubuntu/24.04" : String) = defaultImage mLive.spec.image ∧
    (2 : Int) = defaultCpus mLive.spec.cpus ∧
    (2048 : Int) = defaultMemoryMiB mLive.spec.memoryMiB ∧
    (0 : Int) = mLive.spec.rootDiskSizeGiB ∧
    ("images:ubuntu/24.04" : String) ≠ "" ∧ (1 : Int) ≤ 2 ∧ (1 : Int) ≤ 2048 :=
  ⟨by decide,
   c3_reconciler_defaults okFalseClient mLive "w1" "images:ubuntu/24.04" 2 2048 0
     (.ok ()) (by decide)⟩

/-- C5: error atomicity — whenever some backend call of a reconcile
answered with an error, the reconcile returns exactly that error, commits
no store write, and leaves the in-memory object exactly as it was at
entry. -/
theorem c5_error_atomicity (c : Client) (m : IncusMachine) (k : Call)
    (hk : k ∈ (Reconcile c m).calls) (hke : k.isErr = true) :
    (Reconcile c m).error = k.errMsg ∧
    (Reconcile c m).writes = [] ∧
    (Reconcile c m).machine = m := by
  by_cases hd : m.deletionTimestampSet
  · by_cases hf : containsFinalizer m incusMachineFinalizer
    · by_cases hn : deleteName m ≠ ""
      · rcases hE : c.instanceExists (deleteName m) with e | b
        · simp [Reconcile, hd, hf, reconcileDelete, hn, hE] at hk ⊢
          simp [hk, Call.errMsg]
        · cases b
          · simp [Reconcile, hd, hf, reconcileDelete, hn, hE] at hk
            simp [hk, Call.isErr] at hke
          · rcases hD : c.deleteInstance (deleteName m) with e | u
            · simp [Reconcile, hd, hf, reconcileDelete, hn, hE, hD] at hk ⊢
              rcases hk with hk | hk
              · simp [hk, Call.isErr] at hke
              · simp [hk, Call.errMsg]
            · simp [Reconcile, hd, hf, reconcileDelete, hn, hE, hD] at hk
              rcases hk with hk | hk <;> simp [hk, Call.isErr] at hke
      · simp [Reconcile, hd, hf, reconcileDelete, hn] at hk
    · simp [Reconcile, hd, hf, reconcileDelete] at hk
  · by_cases hf : containsFinalizer m incusMachineFinalizer
    · rcases hE : c.instanceExists (normalName m) with e | b
      · simp [Reconcile, hd, hf, reconcileNormal, hE] at hk ⊢
        simp [hk, Call.errMsg]
      · cases b
        · rcases hC : c.createInstance (normalName m) (defaultImage m.spec.image)
              (defaultCpus m.spec.cpus) (defaultMemoryMiB m.spec.memoryMiB)
              m.spec.rootDiskSizeGiB with e | u
          · simp [Reconcile, hd, hf, reconcileNormal, hE, hC] at hk ⊢
            rcases hk with hk | hk
            · simp [hk, Call.isErr] at hke
            · simp [hk, Call.errMsg]
          · simp [Reconcile, hd, hf, reconcileNormal, hE, hC] at hk
            rcases hk with hk | hk <;> simp [hk, Call.isErr] at hke
        · by_cases hs : m.status.instanceID ≠ normalName m
          · simp [Reconcile, hd, hf, reconcileNormal, hE, hs] at hk
            simp [hk, Call.isErr] at hke
          · simp [Reconcile, hd, hf, reconcileNormal, hE, hs] at hk
            simp [hk, Call.isErr] at hke
    · simp [Reconcile, hd, hf] at hk

/-- C5 witness: a failing existence check at a live machine returns the
failure and commits nothing. -/
theorem c5_witness :
    (Reconcile errExistsClient mLive).error =
      Call.errMsg (.instExists "w1" (.error "connection refused")) ∧
    (Reconcile errExistsClient mLive).writes = [] ∧
    (Reconcile errExistsClient mLive).machine = mLive :=
  c5_error_atomicity errExistsClient mLive
    (.instExists "w1" (.error "connection refused")) (by decide) (by decide)

/-- A machine with deletion requested, the finalizer present, and both the
object name and the status `instanceID` empty. -/
def mEmptyDel : IncusMachine :=
  { name := "", deletionTimestampSet := true, finalizers := [incusMachineFinalizer]
    spec := specZero, status := { instanceID := "" } }

/-- A live machine whose status `instanceID` already equals its name. -/
def mSynced : IncusMachine :=
  { name := "w1", deletionTimestampSet := false, finalizers := [incusMachineFinalizer]
    spec := specZero, status := { instanceID := "w1" } }

/-- C1, counterexample: the code removes the finalizer in runs where no
existence check ever returned false.  First, for a deleting machine whose
instance exists and whose delete call succeeds, the finalizer is removed
although the only existence check of the run returned true.  Second, for a
deleting machine whose object name and status `instanceID` are both empty,
the finalizer is removed without a single backend call. -/
theorem c1_counterexample :
    (containsFinalizer mDeleting incusMachineFinalizer = true ∧
     mDeleting.deletionTimestampSet = true ∧
     containsFinalizer (Reconcile okTrueClient mDeleting).machine incusMachineFinalizer
       = false ∧
     (Reconcile okTrueClient mDeleting).calls.any Call.isExistsFalse = false ∧
     (Reconcile okTrueClient mDeleting).error = none) ∧
    (containsFinalizer mEmptyDel incusMachineFinalizer = true ∧
     mEmptyDel.deletionTimestampSet = true ∧
     containsFinalizer (Reconcile okTrueClient mEmptyDel).machine incusMachineFinalizer
       = false ∧
     (Reconcile okTrueClient mEmptyDel).calls = []) := by
  decide

/-- C1, amended: for a deleting machine carrying the finalizer whose
resolved instance name is non-empty, the reconcile removes the finalizer
only when, in that run, either the existence check returned false or the
existence check returned true and the delete call returned success; in
particular it never removes the finalizer in a run where the delete call
errored. -/
theorem c1_finalizer_removal_confirmed (c : Client) (m : IncusMachine)
    (hd : m.deletionTimestampSet = true)
    (hfin : containsFinalizer m incusMachineFinalizer = true)
    (hn : deleteName m ≠ "")
    (hrem : containsFinalizer (Reconcile c m).machine incusMachineFinalizer = false) :
    c.instanceExists (deleteName m) = .ok false ∨
    (c.instanceExists (deleteName m) = .ok true ∧
     c.deleteInstance (deleteName m) = .ok ()) := by
  rcases hE : c.instanceExists (deleteName m) with e | b
  · exfalso
    simp [Reconcile, hd, reconcileDelete, hfin, hn, hE] at hrem
  · cases b
    · exact Or.inl rfl
    · rcases hD : c.deleteInstance (deleteName m) with e | u
      · exfalso
        simp [Reconcile, hd, reconcileDelete, hfin, hn, hE, hD] at hrem
      · exact Or.inr ⟨rfl, rfl⟩

/-- C1 witness: a deleting machine whose instance is already absent has its
finalizer removed, and indeed the existence check returned false. -/
theorem c1_witness :
    okFalseClient.instanceExists (deleteName mDeleting) = .ok false ∨
    (okFalseClient.instanceExists (deleteName mDeleting) = .ok true ∧
     okFalseClient.deleteInstance (deleteName mDeleting) = .ok ()) :=
  c1_finalizer_removal_confirmed okFalseClient mDeleting rfl (by decide) (by decide)
    (by decide)

/-- `normalName` on a literal machine, reduced to its two inputs. -/
lemma normalName_mk (nm : String) (dts : Bool) (fin : List String)
    (sp : IncusMachineSpec) (iid : String) :
    normalName ⟨nm, dts, fin, sp, ⟨iid⟩⟩ = if iid ≠ "" then iid else nm := rfl

/-- Re-selecting an instance name after it has been written back into the
status yields the same name. -/
lemma normalName_if (m : IncusMachine) :
    (if normalName m = "" then m.name else normalName m) = normalName m := by
  by_cases h : normalName m = ""
  · have h2 : m.status.instanceID = "" := by
      by_contra hne
      have h' := h
      unfold normalName at h'
      rw [if_pos hne] at h'
      exact hne h'
    have h3 : m.name = "" := by
      have h' := h
      unfold normalName at h'
      simpa [h2] using h'
    simp [h, h3]
  · simp [h]

/-- Membership after appending the searched name. -/
lemma contains_append_self (b : List String) (n : String) :
    (b ++ [n]).contains n = true := by
  simp

/-- C9, counterexample: the second of two back-to-back reconciles with no
intervening external backend change does issue backend calls, and can even
change status.  For a new object the first reconcile only adds the
finalizer, and the second one creates the instance — an additional backend
call and a status diff.  For a fully converged machine the second reconcile
still issues an existence check — an additional backend call. -/
theorem c9_counterexample :
    ((reconcileStep (reconcileStep mNew []).1.machine (reconcileStep mNew []).2).1.calls
       ≠ [] ∧
     (reconcileStep (reconcileStep mNew []).1.machine
        (reconcileStep mNew []).2).1.machine.status
       ≠ (reconcileStep mNew []).1.machine.status) ∧
    ((reconcileStep mSynced ["w1"]).1.machine = mSynced ∧
     (reconcileStep (reconcileStep mSynced ["w1"]).1.machine
        (reconcileStep mSynced ["w1"]).2).1.calls ≠ []) := by
  decide

/-- C9, amended: idempotence holds for mutation and for every reconcile
that did not ask to be re-run: if a reconcile returns without a requeue
directive, an immediately following reconcile with no intervening backend
state change issues no state-changing backend call (no create, no delete),
changes neither the object nor the backend state, and commits no store
write — only a read-only existence check may recur. -/
theorem c9_idempotence (m : IncusMachine) (b : BackendState)
    (h : (reconcileStep m b).1.requeue = false) :
    (reconcileStep (reconcileStep m b).1.machine (reconcileStep m b).2).1.machine
      = (reconcileStep m b).1.machine ∧
    (reconcileStep (reconcileStep m b).1.machine (reconcileStep m b).2).2
      = (reconcileStep m b).2 ∧
    (reconcileStep (reconcileStep m b).1.machine
       (reconcileStep m b).2).1.calls.any Call.isMutating = false ∧
    (reconcileStep (reconcileStep m b).1.machine (reconcileStep m b).2).1.writes
      = [] := by
  by_cases hd : m.deletionTimestampSet
  · by_cases hf : containsFinalizer m incusMachineFinalizer
    · have hfm : incusMachineFinalizer ∈ m.finalizers := by
        simpa [containsFinalizer] using hf
      by_cases hn : deleteName m ≠ ""
      · by_cases hc : deleteName m ∈ b
        · simp [reconcileStep, Reconcile, hd, hfm, hn, hc, reconcileDelete, stateClient,
                applyCall, removeFinalizer, containsFinalizer, Call.isMutating]
        · simp [reconcileStep, Reconcile, hd, hfm, hn, hc, reconcileDelete, stateClient,
                applyCall, removeFinalizer, containsFinalizer, Call.isMutating]
      · simp [reconcileStep, Reconcile, hd, hfm, hn, reconcileDelete, stateClient,
              applyCall, removeFinalizer, containsFinalizer, Call.isMutating]
    · have hfm : incusMachineFinalizer ∉ m.finalizers := by
        simpa [containsFinalizer] using hf
      simp [reconcileStep, Reconcile, hd, hfm, reconcileDelete, stateClient, applyCall,
            containsFinalizer, Call.isMutating]
  · by_cases hf : containsFinalizer m incusMachineFinalizer
    · have hfm : incusMachineFinalizer ∈ m.finalizers := by
        simpa [containsFinalizer] using hf
      by_cases hc : normalName m ∈ b
      · by_cases hs : m.status.instanceID ≠ normalName m
        · simp [reconcileStep, Reconcile, hd, hfm, hc, hs, reconcileNormal, stateClient,
                applyCall, containsFinalizer, normalName_mk, normalName_if,
                Call.isMutating, Call.isCreate, Call.isDelete]
        · simp [reconcileStep, Reconcile, hd, hfm, hc, hs, reconcileNormal, stateClient,
                applyCall, containsFinalizer, Call.isMutating, Call.isCreate,
                Call.isDelete]
      · simp [reconcileStep, Reconcile, hd, hfm, hc, reconcileNormal, stateClient,
              applyCall, containsFinalizer, normalName_mk, normalName_if,
              contains_append_self, Call.isMutating, Call.isCreate, Call.isDelete]
    · have hfm : incusMachineFinalizer ∉ m.finalizers := by
        simpa [containsFinalizer] using hf
      exfalso
      simp [reconcileStep, Reconcile, hd, hfm, containsFinalizer] at h
/-- C9 witness: a converged live machine reconciles to itself and the
follow-up run is call-silent apart from the read-only existence check. -/
theorem c9_witness :
    (reconcileStep mSynced ["w1"]).1.requeue = false ∧
    ((reconcileStep (reconcileStep mSynced ["w1"]).1.machine
        (reconcileStep mSynced ["w1"]).2).1.machine
      = (reconcileStep mSynced ["w1"]).1.machine ∧
     (reconcileStep (reconcileStep mSynced ["w1"]).1.machine
        (reconcileStep mSynced ["w1"]).2).2
      = (reconcileStep mSynced ["w1"]).2 ∧
     (reconcileStep (reconcileStep mSynced ["w1"]).1.machine
        (reconcileStep mSynced ["w1"]).2).1.calls.any Call.isMutating = false ∧
     (reconcileStep (reconcileStep mSynced ["w1"]).1.machine
        (reconcileStep mSynced ["w1"]).2).1.writes = []) :=
  ⟨by decide, c9_idempotence mSynced ["w1"] (by decide)⟩

end Incus
